import Mathlib

/-!
Verification of the CHIP-8 interpreter core (`interpreter.go`, `keypad.go`).

The machine state and every opcode handler are translated directly from the
Go source.  Machine integers are modelled as `Nat` with explicit reductions
(`% 256`, `% 65536`, ...) at the points where the Go code performs
fixed-width arithmetic.  Go's runtime bounds check on array indexing is
modelled by checked list accesses: an out-of-range index yields the
`HR.panic` outcome (a Go panic aborts the process, so no post-state is
observable).  A handler that returns `ErrUnknownOpcode` yields `HR.err s`
where `s` is the receiver state as mutated so far, matching the fact that
the Go `Interpreter` object retains any mutations applied before the error
return.  The Go field `Interpreter.opcode` is a scratch slot written by
`Cycle` immediately before dispatch and read only by that dispatch, so the
fetched instruction word is passed to handlers as an argument.  The random
byte consumed by opcode `Cxkk` and supplied by `math/rand` is passed to
`execOp`/`Cycle` as an oracle argument `rnd`.  Calls to the `beep` callback
are collected as a list of `Bool` events returned by `Cycle`.
-/

namespace Chip8

def DisplayWidth : Nat := 64

def DisplayHeight : Nat := 32

def CPUFrequency : Nat := 850

def ClockFrequency : Nat := 60

/-- Font table from the source's `digitSprites` (5 bytes per hex digit). -/
def digitSprites : List Nat :=
  [0xf0, 0x90, 0x90, 0x90, 0xf0,
   0x20, 0x60, 0x20, 0x20, 0x70,
   0xf0, 0x10, 0xf0, 0x80, 0xf0,
   0xf0, 0x10, 0xf0, 0x10, 0xf0,
   0x90, 0x90, 0xf0, 0x10, 0x10,
   0xf0, 0x80, 0xf0, 0x10, 0xf0,
   0xf0, 0x80, 0xf0, 0x90, 0xf0,
   0xf0, 0x10, 0x20, 0x40, 0x40,
   0xf0, 0x90, 0xf0, 0x90, 0xf0,
   0xf0, 0x90, 0xf0, 0x10, 0xf0,
   0xf0, 0x90, 0xf0, 0x90, 0x90,
   0xe0, 0x90, 0xe0, 0x90, 0xe0,
   0xf0, 0x80, 0x80, 0x80, 0xf0,
   0xe0, 0x90, 0x90, 0x90, 0xe0,
   0xf0, 0x80, 0xf0, 0x80, 0xf0,
   0xf0, 0x80, 0xf0, 0x80, 0x80]

/-- The interpreter state, from the source's `Interpreter` struct. -/
structure Machine where
  pc : Nat
  sp : Nat
  dt : Nat
  st : Nat
  vx : List Nat
  i : Nat
  stack : List Nat
  memory : Nat → Nat
  display : List (List Nat)
  keys : List Bool
  lastReleasedKey : Option Nat
  clockCycleCounter : Nat
  isSoundPlaying : Bool

/-- Result of one opcode handler: normal return, `ErrUnknownOpcode` return
(with the mutated-so-far receiver state), or a Go runtime bounds-check
panic. -/
inductive HR where
  | ok (s : Machine)
  | err (s : Machine)
  | panic

/-- Result of one `Cycle` call. -/
inductive CR where
  | ok (s : Machine) (events : List Bool)
  | err (s : Machine)
  | panic

def HR.stateOf : HR → Option Machine
  | .ok s => some s
  | .err s => some s
  | .panic => none

def HR.isOk : HR → Bool
  | .ok _ => true
  | _ => false

/-- Source `addr`: `word & 0x0fff`. -/
def addr (word : Nat) : Nat := word % 4096

/-- Source `x`: `(word & 0x0f00) >> 8`. -/
def fldX (word : Nat) : Nat := word / 256 % 16

/-- Source `y`: `(word & 0x00f0) >> 4`. -/
def fldY (word : Nat) : Nat := word / 16 % 16

/-- Source `n`: `word & 0x000f`. -/
def fldN (word : Nat) : Nat := word % 16

/-- Source `byte`: `word & 0x00ff`. -/
def fldKK (word : Nat) : Nat := word % 256

/-- Read register `Vk` (`i.vx[k]`; the index is always a nibble, hence in
bounds for the 16-entry register file). -/
def getV (s : Machine) (k : Nat) : Nat := s.vx.getD k 0

/-- Write register `Vk`. -/
def setV (s : Machine) (k v : Nat) : Machine := { s with vx := s.vx.set k v }

/-- Key-down state of key `k` (`i.keys[k]`; callers mask the index to a
nibble). -/
def getKey (s : Machine) (k : Nat) : Bool := s.keys.getD k false

/-- The trailing `i.pc += 2` shared by most handlers (`uint16` addition). -/
def advance (s : Machine) : Machine := { s with pc := (s.pc + 2) % 65536 }

/-- Checked memory read, modelling `i.memory[a]` with Go's runtime bounds
check against the fixed array size 4096. -/
def memRead (mem : Nat → Nat) (a : Nat) : Option Nat :=
  if a < 4096 then some (mem a) else none

/-- Checked memory write, modelling `i.memory[a] = v` with Go's runtime
bounds check against the fixed array size 4096. -/
def memWrite (mem : Nat → Nat) (a v : Nat) : Option (Nat → Nat) :=
  if a < 4096 then some (fun k => if k = a then v else mem k) else none

/-- Family 0: `00E0` clear screen, `00EE` return, else unknown opcode. -/
def opHandler0 (op : Nat) (s : Machine) : HR :=
  match fldKK op with
  | 0xe0 => HR.ok (advance { s with display := s.display.map (fun row => row.map (fun _ => 0)) })
  | 0xee =>
    match s.stack.get? ((s.sp + 65535) % 65536) with
    | none => HR.panic
    | some v => HR.ok (advance { s with sp := (s.sp + 65535) % 65536, pc := v })
  | _ => HR.err s

/-- `1nnn`: jump. -/
def opHandler1 (op : Nat) (s : Machine) : HR :=
  HR.ok { s with pc := addr op }

/-- `2nnn`: call (push current pc, bump sp, jump). -/
def opHandler2 (op : Nat) (s : Machine) : HR :=
  if s.sp < s.stack.length then
    HR.ok { s with stack := s.stack.set s.sp s.pc, sp := (s.sp + 1) % 65536, pc := addr op }
  else HR.panic

/-- `3xkk`: skip if `Vx = kk`. -/
def opHandler3 (op : Nat) (s : Machine) : HR :=
  HR.ok (if getV s (fldX op) = fldKK op then advance (advance s) else advance s)

/-- `4xkk`: skip if `Vx ≠ kk`. -/
def opHandler4 (op : Nat) (s : Machine) : HR :=
  HR.ok (if getV s (fldX op) ≠ fldKK op then advance (advance s) else advance s)

/-- `5xy0`: skip if `Vx = Vy`; a nonzero low nibble is an unknown opcode. -/
def opHandler5 (op : Nat) (s : Machine) : HR :=
  if fldN op ≠ 0 then HR.err s
  else HR.ok (if getV s (fldX op) = getV s (fldY op) then advance (advance s) else advance s)

/-- `6xkk`: load immediate. -/
def opHandler6 (op : Nat) (s : Machine) : HR :=
  HR.ok (advance (setV s (fldX op) (fldKK op)))

/-- `7xkk`: add immediate (mod 256, no flag). -/
def opHandler7 (op : Nat) (s : Machine) : HR :=
  HR.ok (advance (setV s (fldX op) ((getV s (fldX op) + fldKK op) % 256)))

/-- Family 8: register-register ALU operations. -/
def opHandler8 (op : Nat) (s : Machine) : HR :=
  match fldN op with
  | 0x0 => HR.ok (advance (setV s (fldX op) (getV s (fldY op))))
  | 0x1 => HR.ok (advance (setV s (fldX op) (getV s (fldX op) ||| getV s (fldY op))))
  | 0x2 => HR.ok (advance (setV s (fldX op) (getV s (fldX op) &&& getV s (fldY op))))
  | 0x3 => HR.ok (advance (setV s (fldX op) (getV s (fldX op) ^^^ getV s (fldY op))))
  | 0x4 =>
    HR.ok (advance
      (if getV s (fldX op) + getV s (fldY op) > 255 then
        setV (setV s (fldX op) ((getV s (fldX op) + getV s (fldY op)) % 256)) 15 1
      else
        setV (setV s (fldX op) ((getV s (fldX op) + getV s (fldY op)) % 256)) 15 0))
  | 0x5 =>
    HR.ok (advance
      (setV (setV s (fldX op) ((getV s (fldX op) + 256 - getV s (fldY op)) % 256)) 15
        (if getV s (fldX op) ≥ getV s (fldY op) then 1 else 0)))
  | 0x6 =>
    HR.ok (advance
      (setV (setV s (fldX op) (getV s (fldX op) / 2)) 15 (getV s (fldX op) % 2)))
  | 0x7 =>
    HR.ok (advance
      (setV (setV s (fldX op) ((getV s (fldY op) + 256 - getV s (fldX op)) % 256)) 15
        (if getV s (fldY op) ≥ getV s (fldX op) then 1 else 0)))
  | 0xe =>
    HR.ok (advance
      (setV (setV s (fldX op) (getV s (fldX op) * 2 % 256)) 15 (getV s (fldX op) / 128)))
  | _ => HR.err s

/-- `9xy0`: skip if `Vx ≠ Vy` (the source does not check the low nibble). -/
def opHandler9 (op : Nat) (s : Machine) : HR :=
  HR.ok (if getV s (fldX op) ≠ getV s (fldY op) then advance (advance s) else advance s)

/-- `Annn`: load address register. -/
def opHandlerA (op : Nat) (s : Machine) : HR :=
  HR.ok (advance { s with i := addr op })

/-- `Bnnn`: jump to `nnn + V0`. -/
def opHandlerB (op : Nat) (s : Machine) : HR :=
  HR.ok { s with pc := (addr op + getV s 0) % 65536 }

/-- `Cxkk`: random byte AND `kk`; `rnd` is the oracle for `rand.Intn 256`. -/
def opHandlerC (rnd op : Nat) (s : Machine) : HR :=
  HR.ok (advance (setV s (fldX op) (rnd % 256 &&& fldKK op)))

/-- Pixel value at display row `r`, column `c`. -/
def dispGet (d : List (List Nat)) (r c : Nat) : Nat := (d.getD r []).getD c 0

/-- Write pixel value at display row `r`, column `c`. -/
def dispSet (d : List (List Nat)) (r c v : Nat) : List (List Nat) :=
  d.set r ((d.getD r []).set c v)

/-- Sprite bit for column `cx` of sprite byte `b`: `(b >> (7-cx)) & 1`. -/
def bitAt (b cx : Nat) : Nat := b / 2 ^ (7 - cx) % 2

/-- One iteration of the inner draw loop body: XOR a sprite bit into a
display cell and update the collision flag. -/
def drawPixel (acc : List (List Nat) × Nat) (r c b : Nat) : List (List Nat) × Nat :=
  let old := dispGet acc.1 r c
  let nw := old ^^^ b
  (dispSet acc.1 r c nw, if old = 1 ∧ nw = 0 then 1 else acc.2)

/-- The inner loop of `opHandlerD` over the 8 sprite columns of row `ry`. -/
def drawRowGo (sy sx ry b : Nat) (acc : List (List Nat) × Nat) : List (List Nat) × Nat :=
  (List.range 8).foldl
    (fun a cx => drawPixel a ((sy + ry) % 32) ((sx + cx) % 64) (bitAt b cx)) acc

/-- The double loop of `opHandlerD`: reads `h` sprite bytes from memory
(checked, as `memory[i+ry]` can be out of range) and XORs them into the
display, accumulating the collision flag. -/
def drawSprite (mem : Nat → Nat) (i sy sx h : Nat) (d0 : List (List Nat)) :
    Option (List (List Nat) × Nat) :=
  (List.range h).foldlM
    (fun acc ry => (memRead mem ((i + ry) % 65536)).map (fun b => drawRowGo sy sx ry b acc))
    (d0, 0)

/-- `Dxyn`: draw sprite at `(Vx, Vy)`, `VF` = collision. -/
def opHandlerD (op : Nat) (s : Machine) : HR :=
  match drawSprite s.memory s.i (getV s (fldY op)) (getV s (fldX op)) (fldN op) s.display with
  | none => HR.panic
  | some (d, f) =>
    HR.ok (advance { s with display := d, vx := s.vx.set 15 f })

/-- Family E: `Ex9E` / `ExA1` key skips.  Note the source advances the
program counter before dispatching on the low byte, so the unknown-opcode
path returns with `pc` already advanced. -/
def opHandlerE (op : Nat) (s : Machine) : HR :=
  match fldKK op with
  | 0x9e =>
    HR.ok (if getKey (advance s) (getV (advance s) (fldX op) % 16) then
      advance (advance s) else advance s)
  | 0xa1 =>
    HR.ok (if getKey (advance s) (getV (advance s) (fldX op) % 16) then
      advance s else advance (advance s))
  | _ => HR.err (advance s)

/-- The loop of `Fx55`: store registers `V0..Vx` to memory (checked). -/
def storeRegsMem (mem : Nat → Nat) (vxs : List Nat) (base cnt : Nat) : Option (Nat → Nat) :=
  (List.range cnt).foldlM
    (fun m k => memWrite m ((base + k) % 65536) (vxs.getD k 0)) mem

/-- The loop of `Fx65`: load registers `V0..Vx` from memory (checked). -/
def loadRegsVx (vxs : List Nat) (mem : Nat → Nat) (base cnt : Nat) : Option (List Nat) :=
  (List.range cnt).foldlM
    (fun v k => (memRead mem ((base + k) % 65536)).map (fun b => v.set k b)) vxs

/-- Family F: timers, key wait, address register, BCD and register
block transfer operations. -/
def opHandlerF (op : Nat) (s : Machine) : HR :=
  match fldKK op with
  | 0x07 => HR.ok (advance (setV s (fldX op) s.dt))
  | 0x0a =>
    match s.lastReleasedKey with
    | none => HR.ok s
    | some k => HR.ok (advance { setV s (fldX op) k with lastReleasedKey := none })
  | 0x15 => HR.ok (advance { s with dt := getV s (fldX op) })
  | 0x18 => HR.ok (advance { s with st := getV s (fldX op) })
  | 0x1e => HR.ok (advance { s with i := (s.i + getV s (fldX op)) % 65536 })
  | 0x29 => HR.ok (advance { s with i := getV s (fldX op) % 16 * 5 })
  | 0x33 =>
    match (do
      let m1 ← memWrite s.memory s.i (getV s (fldX op) / 100)
      let m2 ← memWrite m1 ((s.i + 1) % 65536) (getV s (fldX op) / 10 % 10)
      memWrite m2 ((s.i + 2) % 65536) (getV s (fldX op) % 10)) with
    | none => HR.panic
    | some m => HR.ok (advance { s with memory := m })
  | 0x55 =>
    match storeRegsMem s.memory s.vx s.i (fldX op + 1) with
    | none => HR.panic
    | some m => HR.ok (advance { s with memory := m })
  | 0x65 =>
    match loadRegsVx s.vx s.memory s.i (fldX op + 1) with
    | none => HR.panic
    | some v => HR.ok (advance { s with vx := v })
  | _ => HR.err s

/-- Top-nibble dispatch (the source's `dispatch` array). -/
def execOp (rnd op : Nat) (s : Machine) : HR :=
  match op / 4096 % 16 with
  | 0 => opHandler0 op s
  | 1 => opHandler1 op s
  | 2 => opHandler2 op s
  | 3 => opHandler3 op s
  | 4 => opHandler4 op s
  | 5 => opHandler5 op s
  | 6 => opHandler6 op s
  | 7 => opHandler7 op s
  | 8 => opHandler8 op s
  | 9 => opHandler9 op s
  | 10 => opHandlerA op s
  | 11 => opHandlerB op s
  | 12 => opHandlerC rnd op s
  | 13 => opHandlerD op s
  | 14 => opHandlerE op s
  | _ => opHandlerF op s

/-- The timer-tick body of `Cycle` (runs when the clock-cycle counter hits
`CPUFrequency / ClockFrequency`): decrement timers, fire the beep callback
only on sound-state edges, reset the counter. -/
def timerTick (s : Machine) : Machine × List Bool :=
  let s1 := if s.dt > 0 then { s with dt := s.dt - 1 } else s
  if s1.st > 0 then
    if s1.isSoundPlaying then
      ({ s1 with st := s1.st - 1, clockCycleCounter := 0 }, [])
    else
      ({ s1 with st := s1.st - 1, isSoundPlaying := true, clockCycleCounter := 0 }, [true])
  else
    if s1.isSoundPlaying then
      ({ s1 with isSoundPlaying := false, clockCycleCounter := 0 }, [false])
    else
      ({ s1 with clockCycleCounter := 0 }, [])

/-- The timer cadence logic at the end of `Cycle`. -/
def tickPhase (s : Machine) : Machine × List Bool :=
  if s.clockCycleCounter = CPUFrequency / ClockFrequency then timerTick s
  else ({ s with clockCycleCounter := (s.clockCycleCounter + 1) % 256 }, [])

/-- Source `Cycle`: fetch big-endian instruction word at `pc` (checked
memory reads), dispatch, then run the timer cadence logic; a handler error
is returned before the timer phase runs. -/
def Cycle (rnd : Nat) (s : Machine) : CR :=
  match memRead s.memory s.pc, memRead s.memory ((s.pc + 1) % 65536) with
  | some hi, some lo =>
    (match execOp rnd (hi * 256 + lo) s with
     | HR.panic => CR.panic
     | HR.err s1 => CR.err s1
     | HR.ok s1 => CR.ok (tickPhase s1).1 (tickPhase s1).2)
  | _, _ => CR.panic

/-- Source `SetKeyState`: record the key-down state; a "not pressed" call
also records the key in the last-released-key marker. -/
def SetKeyState (s : Machine) (key : Nat) (pressed : Bool) : Machine :=
  { s with keys := s.keys.set key pressed,
           lastReleasedKey := if pressed then s.lastReleasedKey else some key }

/-- Source `NewInterpreter`: zeroed state with `pc = 0x200`. -/
def NewInterpreter : Machine :=
  { pc := 0x200, sp := 0, dt := 0, st := 0,
    vx := List.replicate 16 0, i := 0,
    stack := List.replicate 16 0,
    memory := fun _ => 0,
    display := List.replicate 32 (List.replicate 64 0),
    keys := List.replicate 16 false,
    lastReleasedKey := none, clockCycleCounter := 0, isSoundPlaying := false }

/-- Byte-wise copy into memory starting at `a`, truncating at capacity
4096 (as Go's `copy` / bounded slice write does). -/
def writeBytes : (Nat → Nat) → Nat → List Nat → (Nat → Nat)
  | mem, _, [] => mem
  | mem, a, b :: bs =>
    writeBytes (if a < 4096 then fun k => if k = a then b else mem k else mem) (a + 1) bs

/-- Source `Load`: install the font table at 0x000 and the program image at
0x200. -/
def Load (s : Machine) (program : List Nat) : Machine :=
  { s with memory := writeBytes (writeBytes s.memory 0 digitSprites) 0x200 program }

/-- Run a sequence of cycles, one oracle byte per cycle, collecting beep
events. -/
def runCycles : List Nat → Machine → CR
  | [], s => CR.ok s []
  | r :: rs, s =>
    match Cycle r s with
    | CR.ok s1 evs =>
      (match runCycles rs s1 with
       | CR.ok s2 evs2 => CR.ok s2 (evs ++ evs2)
       | other => other)
    | other => other

/-- Structural well-formedness: the fixed array sizes of the Go struct
(memory is a total function, checked against the constant 4096). -/
def WF (s : Machine) : Prop :=
  s.vx.length = 16 ∧ s.stack.length = 16 ∧ s.keys.length = 16 ∧
    s.display.length = 32 ∧ ∀ row ∈ s.display, row.length = 64

instance (s : Machine) : Decidable (WF s) := by
  unfold WF
  infer_instance

/-! ### List access lemmas -/

lemma setGetD_same {α : Type} (l : List α) (k : Nat) (v d : α) (h : k < l.length) :
    (l.set k v).getD k d = v := by
  induction l generalizing k with
  | nil => simp at h
  | cons a t ih =>
    cases k with
    | zero => simp
    | succ m => simpa using ih m (by simpa using h)

lemma setGetD_other {α : Type} (l : List α) (k j : Nat) (v d : α) (h : k ≠ j) :
    (l.set k v).getD j d = l.getD j d := by
  induction l generalizing k j with
  | nil => simp
  | cons a t ih =>
    cases k with
    | zero =>
      cases j with
      | zero => exact absurd rfl h
      | succ m => simp
    | succ m =>
      cases j with
      | zero => simp
      | succ r => simpa using ih m r (fun hh => h (by rw [hh]))

lemma set_oob {α : Type} (l : List α) (k : Nat) (v : α) (h : l.length ≤ k) :
    l.set k v = l := by
  induction l generalizing k with
  | nil => simp
  | cons a t ih =>
    cases k with
    | zero => simp at h
    | succ m => simpa using ih m (by simpa using h)

lemma getD_replicate {α : Type} (n k : Nat) (a d : α) :
    (List.replicate n a).getD k d = if k < n then a else d := by
  induction n generalizing k with
  | zero => simp
  | succ m ih =>
    cases k with
    | zero => simp [List.replicate]
    | succ r => simpa [List.replicate] using ih r

/-! ### Display lemmas -/

/-- Well-formed display contents: 32 rows of 64 cells. -/
def WFd (d : List (List Nat)) : Prop :=
  d.length = 32 ∧ ∀ k, k < 32 → (d.getD k []).length = 64

lemma WF_display {s : Machine} (h : WF s) : WFd s.display := by
  obtain ⟨-, -, -, h32, hrows⟩ := h
  refine ⟨h32, fun k hk => ?_⟩
  have hk' : k < s.display.length := by omega
  have hmem : s.display.getD k [] ∈ s.display := by
    have := List.getD_eq_getElem s.display [] hk'
    rw [this]
    exact List.getElem_mem hk'
  exact hrows _ hmem

lemma WFd_dispSet {d : List (List Nat)} {r c v : Nat} (h : WFd d) :
    WFd (dispSet d r c v) := by
  obtain ⟨h32, hrows⟩ := h
  refine ⟨by simpa [dispSet] using h32, fun k hk => ?_⟩
  by_cases hkr : k = r
  · subst hkr
    rw [dispSet, setGetD_same _ _ _ _ (by omega), List.length_set]
    exact hrows k hk
  · rw [dispSet, setGetD_other _ _ _ _ _ (fun hh => hkr hh.symm)]
    exact hrows k hk

lemma dispGet_dispSet_self {d : List (List Nat)} {r c v : Nat}
    (h : WFd d) (hr : r < 32) (hc : c < 64) :
    dispGet (dispSet d r c v) r c = v := by
  obtain ⟨h32, hrows⟩ := h
  rw [dispGet, dispSet, setGetD_same _ _ _ _ (by omega),
    setGetD_same _ _ _ _ (by rw [hrows r hr]; omega)]

lemma dispGet_dispSet_row_ne {d : List (List Nat)} {r c v r' c' : Nat} (h : r ≠ r') :
    dispGet (dispSet d r c v) r' c' = dispGet d r' c' := by
  rw [dispGet, dispSet, setGetD_other _ _ _ _ _ h, dispGet]

lemma dispGet_dispSet_col_ne {d : List (List Nat)} {r c v c' : Nat} (h : c ≠ c') :
    dispGet (dispSet d r c v) r c' = dispGet d r c' := by
  by_cases hr : r < d.length
  · rw [dispGet, dispSet, setGetD_same _ _ _ _ hr, setGetD_other _ _ _ _ _ h, dispGet]
  · rw [dispSet, set_oob _ _ _ (le_of_not_lt hr)]

lemma dispGet_zeros (r c : Nat) :
    dispGet (List.replicate 32 (List.replicate 64 0)) r c = 0 := by
  rw [dispGet, getD_replicate]
  split
  · rw [getD_replicate]
    split <;> rfl
  · simp

/-! ### Index arithmetic -/

lemma addMod64_inj (sx a b : Nat) (ha : a < 64) (hb : b < 64)
    (h : (sx + a) % 64 = (sx + b) % 64) : a = b := by omega

lemma addMod32_inj (sy a b : Nat) (ha : a < 32) (hb : b < 32)
    (h : (sy + a) % 32 = (sy + b) % 32) : a = b := by omega

lemma bitAt_cases (b cx : Nat) : bitAt b cx = 0 ∨ bitAt b cx = 1 := by
  unfold bitAt
  omega

lemma collide_iff (old b : Nat) (hb : b = 0 ∨ b = 1) :
    (old = 1 ∧ old ^^^ b = 0) ↔ (old = 1 ∧ b = 1) := by
  rcases hb with hb | hb <;> subst hb
  · constructor
    · rintro ⟨h1, h2⟩
      rw [Nat.xor_zero] at h2
      omega
    · rintro ⟨-, h2⟩
      omega
  · constructor
    · rintro ⟨h1, -⟩
      exact ⟨h1, rfl⟩
    · rintro ⟨h1, -⟩
      subst h1
      exact ⟨rfl, rfl⟩

/-! ### Draw loop characterisation -/

/-- The inner draw loop over an arbitrary list of column offsets. -/
def rowFoldF (sx r b : Nat) (cxs : List Nat) (acc : List (List Nat) × Nat) :
    List (List Nat) × Nat :=
  cxs.foldl (fun a cx => drawPixel a r ((sx + cx) % 64) (bitAt b cx)) acc

lemma drawRowGo_eq (sy sx ry b : Nat) (acc : List (List Nat) × Nat) :
    drawRowGo sy sx ry b acc = rowFoldF sx ((sy + ry) % 32) b (List.range 8) acc := rfl

lemma drawPixel_fst (acc : List (List Nat) × Nat) (r c v : Nat) :
    (drawPixel acc r c v).1 = dispSet acc.1 r c (dispGet acc.1 r c ^^^ v) := rfl

lemma drawPixel_snd (acc : List (List Nat) × Nat) (r c v : Nat) :
    (drawPixel acc r c v).2 =
      if dispGet acc.1 r c = 1 ∧ dispGet acc.1 r c ^^^ v = 0 then 1 else acc.2 := rfl

lemma rowFoldF_cons (sx r b cx : Nat) (cxs : List Nat) (acc : List (List Nat) × Nat) :
    rowFoldF sx r b (cx :: cxs) acc =
      rowFoldF sx r b cxs (drawPixel acc r ((sx + cx) % 64) (bitAt b cx)) := by
  simp [rowFoldF]

lemma rowFold_spec (sx r b : Nat) (hr : r < 32) :
    ∀ (cxs : List Nat) (acc : List (List Nat) × Nat),
      WFd acc.1 → cxs.Pairwise (fun u w => u ≠ w) → (∀ cx ∈ cxs, cx < 64) →
      WFd (rowFoldF sx r b cxs acc).1 ∧
      (∀ r' c, r' ≠ r →
        dispGet (rowFoldF sx r b cxs acc).1 r' c = dispGet acc.1 r' c) ∧
      (∀ c, (∀ cx ∈ cxs, (sx + cx) % 64 ≠ c) →
        dispGet (rowFoldF sx r b cxs acc).1 r c = dispGet acc.1 r c) ∧
      (∀ cx ∈ cxs, dispGet (rowFoldF sx r b cxs acc).1 r ((sx + cx) % 64) =
        dispGet acc.1 r ((sx + cx) % 64) ^^^ bitAt b cx) ∧
      ((rowFoldF sx r b cxs acc).2 = 1 ↔
        acc.2 = 1 ∨ ∃ cx ∈ cxs, dispGet acc.1 r ((sx + cx) % 64) = 1 ∧ bitAt b cx = 1) ∧
      ((rowFoldF sx r b cxs acc).2 = acc.2 ∨ (rowFoldF sx r b cxs acc).2 = 1) := by
  intro cxs
  induction cxs with
  | nil =>
    intro acc hWF _ _
    refine ⟨hWF, ?_, ?_, ?_, ?_, ?_⟩ <;> simp [rowFoldF]
  | cons cx cxs ih =>
    intro acc hWF hpw hlt
    have hcx64 : cx < 64 := hlt cx (List.mem_cons_self _ _)
    have hne : ∀ z ∈ cxs, cx ≠ z := (List.pairwise_cons.mp hpw).1
    have hpw2 : cxs.Pairwise (fun u w => u ≠ w) := (List.pairwise_cons.mp hpw).2
    have hlt2 : ∀ z ∈ cxs, z < 64 := fun z hz => hlt z (List.mem_cons_of_mem _ hz)
    have hc0lt : (sx + cx) % 64 < 64 := Nat.mod_lt _ (by norm_num)
    have hWF1 : WFd (drawPixel acc r ((sx + cx) % 64) (bitAt b cx)).1 := by
      rw [drawPixel_fst]
      exact WFd_dispSet hWF
    obtain ⟨ihWF, ihRows, ihUn, ihCells, ihFlag, ihMono⟩ :=
      ih (drawPixel acc r ((sx + cx) % 64) (bitAt b cx)) hWF1 hpw2 hlt2
    have htailne : ∀ z ∈ cxs, (sx + z) % 64 ≠ (sx + cx) % 64 := by
      intro z hz heq
      exact hne z hz (addMod64_inj sx cx z hcx64 (hlt2 z hz) heq.symm)
    refine ⟨by rw [rowFoldF_cons]; exact ihWF, ?_, ?_, ?_, ?_, ?_⟩
    · intro r' c hr'
      rw [rowFoldF_cons, ihRows r' c hr', drawPixel_fst,
        dispGet_dispSet_row_ne (fun hh => hr' hh.symm)]
    · intro c hc
      rw [rowFoldF_cons, ihUn c (fun z hz => hc z (List.mem_cons_of_mem _ hz)),
        drawPixel_fst, dispGet_dispSet_col_ne (hc cx (List.mem_cons_self _ _))]
    · intro z hz
      rcases List.mem_cons.mp hz with hz | hz
      · subst hz
        rw [rowFoldF_cons, ihUn _ htailne, drawPixel_fst,
          dispGet_dispSet_self hWF hr hc0lt]
      · have hcc : (sx + cx) % 64 ≠ (sx + z) % 64 := fun heq => (htailne z hz) heq.symm
        rw [rowFoldF_cons, ihCells z hz, drawPixel_fst, dispGet_dispSet_col_ne hcc]
    · have hhead : (drawPixel acc r ((sx + cx) % 64) (bitAt b cx)).2 = 1 ↔
          acc.2 = 1 ∨ (dispGet acc.1 r ((sx + cx) % 64) = 1 ∧ bitAt b cx = 1) := by
        rw [drawPixel_snd]
        by_cases hcond : dispGet acc.1 r ((sx + cx) % 64) = 1 ∧
            dispGet acc.1 r ((sx + cx) % 64) ^^^ bitAt b cx = 0
        · rw [if_pos hcond]
          constructor
          · intro
            exact Or.inr ((collide_iff _ _ (bitAt_cases b cx)).mp hcond)
          · intro
            rfl
        · rw [if_neg hcond]
          constructor
          · exact Or.inl
          · rintro (hh | hh)
            · exact hh
            · exact absurd ((collide_iff _ _ (bitAt_cases b cx)).mpr hh) hcond
      have htails : (∃ z ∈ cxs,
            dispGet (drawPixel acc r ((sx + cx) % 64) (bitAt b cx)).1 r ((sx + z) % 64) = 1 ∧
              bitAt b z = 1) ↔
          (∃ z ∈ cxs, dispGet acc.1 r ((sx + z) % 64) = 1 ∧ bitAt b z = 1) := by
        constructor <;> rintro ⟨z, hz, h1, h2⟩ <;> refine ⟨z, hz, ?_, h2⟩
        · rwa [drawPixel_fst,
            dispGet_dispSet_col_ne (fun heq => (htailne z hz) heq.symm)] at h1
        · rwa [drawPixel_fst,
            dispGet_dispSet_col_ne (fun heq => (htailne z hz) heq.symm)]
      rw [rowFoldF_cons, ihFlag, hhead, htails]
      constructor
      · rintro ((hh | hh) | hh)
        · exact Or.inl hh
        · exact Or.inr ⟨cx, List.mem_cons_self _ _, hh⟩
        · obtain ⟨z, hz, hPz⟩ := hh
          exact Or.inr ⟨z, List.mem_cons_of_mem _ hz, hPz⟩
      · rintro (hh | hh)
        · exact Or.inl (Or.inl hh)
        · obtain ⟨z, hz, hPz⟩ := hh
          rcases List.mem_cons.mp hz with hz | hz
          · subst hz
            exact Or.inl (Or.inr hPz)
          · exact Or.inr ⟨z, hz, hPz⟩
    · rw [rowFoldF_cons]
      rcases ihMono with hh | hh
      · rw [hh, drawPixel_snd]
        split
        · exact Or.inr rfl
        · exact Or.inl rfl
      · exact Or.inr hh

/-- The outer draw loop over an arbitrary list of row offsets. -/
def spriteFoldF (mem : Nat → Nat) (i sy sx : Nat) (rys : List Nat)
    (acc : List (List Nat) × Nat) : Option (List (List Nat) × Nat) :=
  rys.foldlM
    (fun a ry =>
      (memRead mem ((i + ry) % 65536)).map (fun byteRow => drawRowGo sy sx ry byteRow a))
    acc

lemma drawSprite_eq (mem : Nat → Nat) (i sy sx h : Nat) (d0 : List (List Nat)) :
    drawSprite mem i sy sx h d0 = spriteFoldF mem i sy sx (List.range h) (d0, 0) := rfl

lemma spriteFoldF_cons (mem : Nat → Nat) (i sy sx ry : Nat) (rys : List Nat)
    (acc : List (List Nat) × Nat) :
    spriteFoldF mem i sy sx (ry :: rys) acc =
      ((memRead mem ((i + ry) % 65536)).map (fun byteRow => drawRowGo sy sx ry byteRow acc)).bind
        (spriteFoldF mem i sy sx rys) := by
  simp [spriteFoldF, List.foldlM_cons]

lemma spriteFoldF_bounds (mem : Nat → Nat) (i sy sx : Nat) :
    ∀ (rys : List Nat) (acc res : List (List Nat) × Nat),
      spriteFoldF mem i sy sx rys acc = some res → ∀ ry ∈ rys, (i + ry) % 65536 < 4096 := by
  intro rys
  induction rys with
  | nil =>
    intro acc res _ ry hry
    simp at hry
  | cons ry rys ih =>
    intro acc res hsome z hz
    rw [spriteFoldF_cons] at hsome
    by_cases hcase : (i + ry) % 65536 < 4096
    · rw [memRead, if_pos hcase] at hsome
      simp only [Option.map_some', Option.some_bind] at hsome
      rcases List.mem_cons.mp hz with hz | hz
      · subst hz
        exact hcase
      · exact ih _ res hsome z hz
    · rw [memRead, if_neg hcase] at hsome
      simp at hsome

lemma spriteFold_spec (mem : Nat → Nat) (i sy sx : Nat) :
    ∀ (rys : List Nat) (acc : List (List Nat) × Nat),
      WFd acc.1 → rys.Pairwise (fun u w => u ≠ w) → (∀ ry ∈ rys, ry < 32) →
      (∀ ry ∈ rys, (i + ry) % 65536 < 4096) →
      ∃ res, spriteFoldF mem i sy sx rys acc = some res ∧
        WFd res.1 ∧
        (∀ r c, (∀ ry ∈ rys, (sy + ry) % 32 ≠ r) → dispGet res.1 r c = dispGet acc.1 r c) ∧
        (∀ ry ∈ rys, ∀ cx, cx < 8 →
          dispGet res.1 ((sy + ry) % 32) ((sx + cx) % 64) =
            dispGet acc.1 ((sy + ry) % 32) ((sx + cx) % 64) ^^^
              bitAt (mem ((i + ry) % 65536)) cx) ∧
        (res.2 = 1 ↔ acc.2 = 1 ∨ ∃ ry ∈ rys, ∃ cx, cx < 8 ∧
          dispGet acc.1 ((sy + ry) % 32) ((sx + cx) % 64) = 1 ∧
            bitAt (mem ((i + ry) % 65536)) cx = 1) ∧
        (res.2 = acc.2 ∨ res.2 = 1) := by
  intro rys
  induction rys with
  | nil =>
    intro acc hWF _ _ _
    refine ⟨acc, rfl, hWF, ?_, ?_, ?_, Or.inl rfl⟩ <;> simp
  | cons ry rys ih =>
    intro acc hWF hpw hlt hrd
    have hry32 : ry < 32 := hlt ry (List.mem_cons_self _ _)
    have hne : ∀ z ∈ rys, ry ≠ z := (List.pairwise_cons.mp hpw).1
    have hpw2 : rys.Pairwise (fun u w => u ≠ w) := (List.pairwise_cons.mp hpw).2
    have hlt2 : ∀ z ∈ rys, z < 32 := fun z hz => hlt z (List.mem_cons_of_mem _ hz)
    have hrd2 : ∀ z ∈ rys, (i + z) % 65536 < 4096 :=
      fun z hz => hrd z (List.mem_cons_of_mem _ hz)
    have hrdh : (i + ry) % 65536 < 4096 := hrd ry (List.mem_cons_self _ _)
    have hr0 : (sy + ry) % 32 < 32 := Nat.mod_lt _ (by norm_num)
    have htailrows : ∀ z ∈ rys, (sy + z) % 32 ≠ (sy + ry) % 32 := by
      intro z hz heq
      exact hne z hz (addMod32_inj sy ry z hry32 (hlt2 z hz) heq.symm)
    obtain ⟨RWF, RRows, RUn, RCells, RFlag, RMono⟩ :=
      rowFold_spec sx ((sy + ry) % 32) (mem ((i + ry) % 65536)) hr0 (List.range 8) acc hWF
        ((List.nodup_range 8).imp (fun hh => hh))
        (fun cx hcx => by
          have := List.mem_range.mp hcx
          omega)
    rw [← drawRowGo_eq sy sx ry (mem ((i + ry) % 65536)) acc] at RWF RRows RUn RCells RFlag RMono
    obtain ⟨res, hres, hWFr, hRows, hCells, hFlag, hMono⟩ :=
      ih (drawRowGo sy sx ry (mem ((i + ry) % 65536)) acc) RWF hpw2 hlt2 hrd2
    refine ⟨res, ?_, hWFr, ?_, ?_, ?_, ?_⟩
    · rw [spriteFoldF_cons, memRead, if_pos hrdh]
      simpa using hres
    · intro r c hr
      rw [hRows r c (fun z hz => hr z (List.mem_cons_of_mem _ hz)),
        RRows r c (fun hh => hr ry (List.mem_cons_self _ _) hh.symm)]
    · intro z hz cx hcx
      rcases List.mem_cons.mp hz with hz | hz
      · subst hz
        rw [hRows _ _ htailrows, RCells cx (List.mem_range.mpr hcx)]
      · rw [hCells z hz cx hcx, RRows _ _ (htailrows z hz)]
    · have htails : (∃ z ∈ rys, ∃ cx, cx < 8 ∧
            dispGet (drawRowGo sy sx ry (mem ((i + ry) % 65536)) acc).1
              ((sy + z) % 32) ((sx + cx) % 64) = 1 ∧
              bitAt (mem ((i + z) % 65536)) cx = 1) ↔
          (∃ z ∈ rys, ∃ cx, cx < 8 ∧
            dispGet acc.1 ((sy + z) % 32) ((sx + cx) % 64) = 1 ∧
              bitAt (mem ((i + z) % 65536)) cx = 1) := by
        constructor <;> rintro ⟨z, hz, cx, hcx, h1, h2⟩ <;> refine ⟨z, hz, cx, hcx, ?_, h2⟩
        · rwa [RRows _ _ (htailrows z hz)] at h1
        · rwa [RRows _ _ (htailrows z hz)]
      have hhead : (drawRowGo sy sx ry (mem ((i + ry) % 65536)) acc).2 = 1 ↔
          acc.2 = 1 ∨ ∃ cx, cx < 8 ∧
            dispGet acc.1 ((sy + ry) % 32) ((sx + cx) % 64) = 1 ∧
              bitAt (mem ((i + ry) % 65536)) cx = 1 := by
        rw [RFlag]
        constructor
        · rintro (hh | ⟨cx, hcx, hP⟩)
          · exact Or.inl hh
          · exact Or.inr ⟨cx, List.mem_range.mp hcx, hP⟩
        · rintro (hh | ⟨cx, hcx, hP⟩)
          · exact Or.inl hh
          · exact Or.inr ⟨cx, List.mem_range.mpr hcx, hP⟩
      rw [hFlag, hhead, htails]
      constructor
      · rintro ((hh | hh) | hh)
        · exact Or.inl hh
        · exact Or.inr ⟨ry, List.mem_cons_self _ _, hh⟩
        · obtain ⟨z, hz, hP⟩ := hh
          exact Or.inr ⟨z, List.mem_cons_of_mem _ hz, hP⟩
      · rintro (hh | ⟨z, hz, hP⟩)
        · exact Or.inl (Or.inl hh)
        · rcases List.mem_cons.mp hz with hz | hz
          · subst hz
            exact Or.inl (Or.inr hP)
          · exact Or.inr ⟨z, hz, hP⟩
    · rcases hMono with hh | hh
      · rw [hh]
        exact RMono
      · exact Or.inr hh

lemma fldN_lt (op : Nat) : fldN op < 16 := Nat.mod_lt _ (by norm_num)

/-! ### Dispatch reduction lemmas (one per top nibble) -/

lemma execOp_fam0 (rnd op : Nat) (s : Machine) (h : op / 4096 % 16 = 0) :
    execOp rnd op s = opHandler0 op s := by
  unfold execOp
  rw [h]

lemma execOp_fam1 (rnd op : Nat) (s : Machine) (h : op / 4096 % 16 = 1) :
    execOp rnd op s = opHandler1 op s := by
  unfold execOp
  rw [h]

lemma execOp_fam2 (rnd op : Nat) (s : Machine) (h : op / 4096 % 16 = 2) :
    execOp rnd op s = opHandler2 op s := by
  unfold execOp
  rw [h]

lemma execOp_fam3 (rnd op : Nat) (s : Machine) (h : op / 4096 % 16 = 3) :
    execOp rnd op s = opHandler3 op s := by
  unfold execOp
  rw [h]

lemma execOp_fam4 (rnd op : Nat) (s : Machine) (h : op / 4096 % 16 = 4) :
    execOp rnd op s = opHandler4 op s := by
  unfold execOp
  rw [h]

lemma execOp_fam5 (rnd op : Nat) (s : Machine) (h : op / 4096 % 16 = 5) :
    execOp rnd op s = opHandler5 op s := by
  unfold execOp
  rw [h]

lemma execOp_fam6 (rnd op : Nat) (s : Machine) (h : op / 4096 % 16 = 6) :
    execOp rnd op s = opHandler6 op s := by
  unfold execOp
  rw [h]

lemma execOp_fam7 (rnd op : Nat) (s : Machine) (h : op / 4096 % 16 = 7) :
    execOp rnd op s = opHandler7 op s := by
  unfold execOp
  rw [h]

lemma execOp_fam8 (rnd op : Nat) (s : Machine) (h : op / 4096 % 16 = 8) :
    execOp rnd op s = opHandler8 op s := by
  unfold execOp
  rw [h]

lemma execOp_fam9 (rnd op : Nat) (s : Machine) (h : op / 4096 % 16 = 9) :
    execOp rnd op s = opHandler9 op s := by
  unfold execOp
  rw [h]

lemma execOp_famA (rnd op : Nat) (s : Machine) (h : op / 4096 % 16 = 10) :
    execOp rnd op s = opHandlerA op s := by
  unfold execOp
  rw [h]

lemma execOp_famB (rnd op : Nat) (s : Machine) (h : op / 4096 % 16 = 11) :
    execOp rnd op s = opHandlerB op s := by
  unfold execOp
  rw [h]

lemma execOp_famC (rnd op : Nat) (s : Machine) (h : op / 4096 % 16 = 12) :
    execOp rnd op s = opHandlerC rnd op s := by
  unfold execOp
  rw [h]

lemma execOp_famD (rnd op : Nat) (s : Machine) (h : op / 4096 % 16 = 13) :
    execOp rnd op s = opHandlerD op s := by
  unfold execOp
  rw [h]

lemma execOp_famE (rnd op : Nat) (s : Machine) (h : op / 4096 % 16 = 14) :
    execOp rnd op s = opHandlerE op s := by
  unfold execOp
  rw [h]

lemma execOp_famF (rnd op : Nat) (s : Machine) (h : op / 4096 % 16 = 15) :
    execOp rnd op s = opHandlerF op s := by
  unfold execOp
  rw [h]

/-- Claim C4: every executed sprite draw `Dxyn` XORs each sprite bit into
the display cell at row `(startY+row) mod 32`, column `(startX+col) mod 64`
(wrapping both coordinates), and the flag register ends the instruction
equal to 1 exactly when some pixel in the drawn region went from set to
unset; the flag is always 0 or 1 and the program counter advances by 2. -/
theorem C4_theorem (rnd op : Nat) (s s' : Machine) (hWF : WF s)
    (hfam : op / 4096 % 16 = 13) (hexec : execOp rnd op s = HR.ok s') :
    (∀ ry, ry < fldN op → ∀ cx, cx < 8 →
      dispGet s'.display ((getV s (fldY op) + ry) % 32) ((getV s (fldX op) + cx) % 64) =
        dispGet s.display ((getV s (fldY op) + ry) % 32) ((getV s (fldX op) + cx) % 64) ^^^
          bitAt (s.memory ((s.i + ry) % 65536)) cx) ∧
    (getV s' 15 = 1 ↔ ∃ ry, ry < fldN op ∧ ∃ cx, cx < 8 ∧
      dispGet s.display ((getV s (fldY op) + ry) % 32) ((getV s (fldX op) + cx) % 64) = 1 ∧
      dispGet s'.display ((getV s (fldY op) + ry) % 32) ((getV s (fldX op) + cx) % 64) = 0) ∧
    (getV s' 15 = 0 ∨ getV s' 15 = 1) ∧
    s'.pc = (s.pc + 2) % 65536 := by
  rw [execOp_famD rnd op s hfam] at hexec
  unfold opHandlerD at hexec
  split at hexec
  case h_1 => exact absurd hexec (by simp)
  case h_2 d f heq =>
    rw [HR.ok.injEq] at hexec
    subst hexec
    rw [drawSprite_eq] at heq
    have hbounds := spriteFoldF_bounds s.memory s.i (getV s (fldY op)) (getV s (fldX op))
      (List.range (fldN op)) (s.display, 0) (d, f) heq
    obtain ⟨res, hres, hWFr, hRows, hCells, hFlag, hMono⟩ :=
      spriteFold_spec s.memory s.i (getV s (fldY op)) (getV s (fldX op))
        (List.range (fldN op)) (s.display, 0) (WF_display hWF)
        ((List.nodup_range _).imp (fun hh => hh))
        (fun z hz => by
          have := List.mem_range.mp hz
          have := fldN_lt op
          omega)
        hbounds
    rw [heq, Option.some_inj] at hres
    subst hres
    dsimp only at hWFr hRows hCells hFlag hMono
    have hv15 : getV (advance { s with display := d, vx := s.vx.set 15 f }) 15 = f := by
      have h16 : (15 : Nat) < s.vx.length := by
        rw [hWF.1]
        omega
      simp only [advance, getV]
      exact setGetD_same _ _ _ _ h16
    have hdisp : (advance { s with display := d, vx := s.vx.set 15 f }).display = d := rfl
    have ha : ∀ ry, ry < fldN op → ∀ cx, cx < 8 →
        dispGet d ((getV s (fldY op) + ry) % 32) ((getV s (fldX op) + cx) % 64) =
          dispGet s.display ((getV s (fldY op) + ry) % 32) ((getV s (fldX op) + cx) % 64) ^^^
            bitAt (s.memory ((s.i + ry) % 65536)) cx := by
      intro ry hry cx hcx
      exact hCells ry (List.mem_range.mpr hry) cx hcx
    refine ⟨by rw [hdisp]; exact ha, ?_, ?_, rfl⟩
    · rw [hv15, hdisp]
      constructor
      · intro hf
        obtain ⟨ry, hry, cx, hcx, hpre, hbit⟩ :=
          (hFlag.mp hf).resolve_left (by omega)
        have hry8 := List.mem_range.mp hry
        refine ⟨ry, hry8, cx, hcx, hpre, ?_⟩
        rw [ha ry hry8 cx hcx, hpre, hbit]
        decide
      · rintro ⟨ry, hry, cx, hcx, hpre, hpost⟩
        apply hFlag.mpr
        refine Or.inr ⟨ry, List.mem_range.mpr hry, cx, hcx, hpre, ?_⟩
        rcases bitAt_cases (s.memory ((s.i + ry) % 65536)) cx with hb | hb
        · rw [ha ry hry cx hcx, hpre, hb] at hpost
          exact absurd hpost (by decide)
        · exact hb
    · rw [hv15]
      simpa using hMono

/-- Demo machine for the draw witness: sprite `[0x40, 0x80]` at
`(V0, V1) = (63, 31)`, exercising both wrap-arounds. -/
def mDraw : Machine :=
  { NewInterpreter with
    vx := ((List.replicate 16 0).set 0 63).set 1 31,
    memory := fun a => if a = 0 then 0x40 else if a = 1 then 0x80 else 0 }

/-- Witness for C4: drawing a two-row sprite from `(63, 31)` wraps the
second bit of row 0 to column 0 of row 31 and the first bit of row 1 to
row 0 column 63, with no collision. -/
theorem C4_witness :
    (execOp 0 0xD012 mDraw).stateOf.map
      (fun m => (dispGet m.display 31 0, dispGet m.display 0 63, getV m 15)) =
      some (1, 1, 0) := by
  have hok : (execOp 0 0xD012 mDraw).isOk = true := by decide
  cases hM : execOp 0 0xD012 mDraw with
  | err s' =>
    rw [hM] at hok
    simp [HR.isOk] at hok
  | panic =>
    rw [hM] at hok
    simp [HR.isOk] at hok
  | ok s' =>
    obtain ⟨ha, hb, hc, hpc⟩ := C4_theorem 0 0xD012 mDraw s' (by decide) (by decide) hM
    have e1 := ha 0 (by decide) 1 (by decide)
    have e2 := ha 1 (by decide) 0 (by decide)
    have p1 : (getV mDraw (fldY 0xD012) + 0) % 32 = 31 := by decide
    have p2 : (getV mDraw (fldX 0xD012) + 1) % 64 = 0 := by decide
    have p3 : (getV mDraw (fldY 0xD012) + 1) % 32 = 0 := by decide
    have p4 : (getV mDraw (fldX 0xD012) + 0) % 64 = 63 := by decide
    rw [p1, p2] at e1
    rw [p3, p4] at e2
    have q1 : dispGet mDraw.display 31 0 ^^^ bitAt (mDraw.memory ((mDraw.i + 0) % 65536)) 1 = 1 := by
      decide
    have q2 : dispGet mDraw.display 0 63 ^^^ bitAt (mDraw.memory ((mDraw.i + 1) % 65536)) 0 = 1 := by
      decide
    rw [q1] at e1
    rw [q2] at e2
    have hzero : ∀ r c, dispGet mDraw.display r c = 0 := fun r c => dispGet_zeros r c
    have hflag : getV s' 15 = 0 := by
      rcases hc with hc | hc
      · exact hc
      · obtain ⟨ry, hry, cx, hcx, hpre, hpost⟩ := hb.mp hc
        rw [hzero] at hpre
        exact absurd hpre (by decide)
    simp only [HR.stateOf, Option.map_some']
    rw [e1, e2, hflag]

/-! ### Call and return -/

lemma get?_eq_getD {α : Type} (l : List α) (k : Nat) (d : α) (h : k < l.length) :
    l.get? k = some (l.getD k d) := by
  induction l generalizing k with
  | nil => simp at h
  | cons a t ih =>
    cases k with
    | zero => simp
    | succ m => simpa using ih m (by simpa using h)

/-- `2nnn` with a stack slot available pushes the current `pc` and jumps. -/
lemma callSpec (rnd op : Nat) (s : Machine) (hf : op / 4096 % 16 = 2)
    (hsp : s.sp < s.stack.length) :
    execOp rnd op s =
      HR.ok { s with stack := s.stack.set s.sp s.pc, sp := (s.sp + 1) % 65536, pc := addr op } := by
  rw [execOp_fam2 rnd op s hf]
  unfold opHandler2
  rw [if_pos hsp]

/-- `00EE` with a non-empty stack pops and sets `pc` to the popped slot
plus 2 (the family-0 handler's shared `pc += 2` applies to returns too). -/
lemma retSpec (rnd : Nat) (s : Machine) (h16 : s.stack.length = 16)
    (h1 : 1 ≤ s.sp) (h2 : s.sp ≤ 16) :
    execOp rnd 0x00EE s =
      HR.ok { s with sp := s.sp - 1, pc := (s.stack.getD (s.sp - 1) 0 + 2) % 65536 } := by
  have hsp : (s.sp + 65535) % 65536 = s.sp - 1 := by omega
  rw [execOp_fam0 rnd 0x00EE s (by decide)]
  unfold opHandler0
  rw [hsp, get?_eq_getD s.stack (s.sp - 1) 0 (by omega)]
  rfl

/-- Claim C7 (amended): `00EE` decrements the stack pointer and sets the
program counter to the popped stack slot plus 2 — the shared trailing
`pc += 2` of the family-0 handler is applied after the pop. -/
theorem C7_theorem (rnd : Nat) (s : Machine) (h16 : s.stack.length = 16)
    (h1 : 1 ≤ s.sp) (h2 : s.sp ≤ 16) :
    execOp rnd 0x00EE s =
      HR.ok { s with sp := s.sp - 1, pc := (s.stack.getD (s.sp - 1) 0 + 2) % 65536 } :=
  retSpec rnd s h16 h1 h2

/-- Demo machine with return address 0x300 on the stack. -/
def mRet : Machine :=
  { NewInterpreter with sp := 1, stack := (List.replicate 16 0).set 0 0x300 }

/-- Counterexample for C7 as stated: popping return address 0x300 leaves
`pc = 0x302`, not the popped value 0x300 — an extra `+2` is applied. -/
theorem C7_counterexample :
    (execOp 0 0x00EE mRet).stateOf.map Machine.pc = some 0x302 ∧
    (execOp 0 0x00EE mRet).stateOf.map Machine.pc ≠ some 0x300 := by
  constructor <;> decide

/-- Witness for the amended C7 at the concrete state `mRet`. -/
theorem C7_witness :
    (execOp 0 0x00EE mRet).stateOf.map (fun m => (m.pc, m.sp)) = some (0x302, 0) := by
  rw [C7_theorem 0 mRet (by decide) (by decide) (by decide)]
  decide

/-- Claim C6: a `CALL` (family 2) from a state with `sp < 16` followed
immediately by `RET` (`00EE`) restores the stack pointer and leaves the
program counter at the instruction after the call. -/
theorem C6_theorem (rnd rnd2 op : Nat) (s s1 s2 : Machine)
    (h16 : s.stack.length = 16) (hsp : s.sp < 16) (hf : op / 4096 % 16 = 2)
    (hCall : execOp rnd op s = HR.ok s1)
    (hRet : execOp rnd2 0x00EE s1 = HR.ok s2) :
    s2.pc = (s.pc + 2) % 65536 ∧ s2.sp = s.sp := by
  rw [callSpec rnd op s hf (by omega)] at hCall
  rw [HR.ok.injEq] at hCall
  subst hCall
  rw [retSpec rnd2 _ (by simpa using h16) (by simp; omega) (by simp; omega)] at hRet
  rw [HR.ok.injEq] at hRet
  subst hRet
  have e1 : (s.sp + 1) % 65536 - 1 = s.sp := by omega
  constructor
  · show ((s.stack.set s.sp s.pc).getD ((s.sp + 1) % 65536 - 1) 0 + 2) % 65536 =
      (s.pc + 2) % 65536
    rw [e1, setGetD_same s.stack s.sp s.pc 0 (by omega)]
  · show (s.sp + 1) % 65536 - 1 = s.sp
    exact e1

/-- State after `CALL 0xABC` from the initial machine. -/
def callDemo : Machine :=
  { NewInterpreter with stack := (List.replicate 16 0).set 0 0x200, sp := 1, pc := 0xABC }

/-- State after the matching `RET`. -/
def callRetDemo : Machine := { callDemo with sp := 0, pc := 0x202 }

/-- Witness for C6: concrete call/return round trip from the initial
machine. -/
theorem C6_witness :
    callRetDemo.pc = (NewInterpreter.pc + 2) % 65536 ∧
    callRetDemo.sp = NewInterpreter.sp :=
  C6_theorem 0 0 0x2ABC NewInterpreter callDemo callRetDemo (by decide) (by decide)
    (by decide) rfl rfl

/-! ### ALU claims -/

/-- Claim C2: opcode `8xy4` stores `(Vx+Vy) mod 256` into `Vx` and then
overwrites the flag register `VF` with 1 exactly when `Vx+Vy > 255`
(computed from the pre-mutation operand values), for every register pair,
including `x = 0xF` where the final flag write clobbers the stored sum. -/
theorem C2_theorem (rnd op : Nat) (s : Machine)
    (hfam : op / 4096 % 16 = 8) (hlow : fldN op = 4) :
    execOp rnd op s =
      HR.ok { s with
        vx := (s.vx.set (fldX op) ((getV s (fldX op) + getV s (fldY op)) % 256)).set 15
          (if getV s (fldX op) + getV s (fldY op) > 255 then 1 else 0),
        pc := (s.pc + 2) % 65536 } := by
  rw [execOp_fam8 rnd op s hfam]
  unfold opHandler8
  rw [hlow]
  by_cases hcond : getV s (fldX op) + getV s (fldY op) > 255
  · rw [if_pos hcond, if_pos hcond]
    rfl
  · rw [if_neg hcond, if_neg hcond]
    rfl

/-- Demo machine with `V0 = 200`, `V1 = 100`. -/
def mAdd : Machine :=
  { NewInterpreter with vx := ((List.replicate 16 0).set 0 200).set 1 100 }

/-- Witness for C2: `200 + 100` overflows to 44 with carry 1; with
`x = 0xF` the flag write is the final value of `VF`. -/
theorem C2_witness :
    (execOp 0 0x8014 mAdd).stateOf.map (fun m => (getV m 0, getV m 15, m.pc)) =
        some (44, 1, 0x202) ∧
      (execOp 0 0x8F14 mAdd).stateOf.map (fun m => (getV m 15, m.pc)) = some (0, 0x202) := by
  constructor
  · rw [C2_theorem 0 0x8014 mAdd (by decide) (by decide)]
    decide
  · rw [C2_theorem 0 0x8F14 mAdd (by decide) (by decide)]
    decide

/-- Claim C3: opcode `8xy5` stores `(Vx-Vy) mod 256` (as `(Vx+256-Vy) mod
256`) into `Vx` and overwrites the flag register with 1 exactly when
`Vx ≥ Vy` (not strict), the flag computed from pre-mutation values. -/
theorem C3_theorem (rnd op : Nat) (s : Machine)
    (hfam : op / 4096 % 16 = 8) (hlow : fldN op = 5) :
    execOp rnd op s =
      HR.ok { s with
        vx := (s.vx.set (fldX op) ((getV s (fldX op) + 256 - getV s (fldY op)) % 256)).set 15
          (if getV s (fldX op) ≥ getV s (fldY op) then 1 else 0),
        pc := (s.pc + 2) % 65536 } := by
  rw [execOp_fam8 rnd op s hfam]
  unfold opHandler8
  rw [hlow]
  rfl

/-- Demo machine with `V0 = 5`, `V1 = 3`. -/
def mSub53 : Machine :=
  { NewInterpreter with vx := ((List.replicate 16 0).set 0 5).set 1 3 }

/-- Demo machine with `V0 = 3`, `V1 = 5`. -/
def mSub35 : Machine :=
  { NewInterpreter with vx := ((List.replicate 16 0).set 0 3).set 1 5 }

/-- Witness for C3: `5 - 3` gives result 2 with flag 1; `3 - 5` wraps to
254 with flag 0. -/
theorem C3_witness :
    (execOp 0 0x8015 mSub53).stateOf.map (fun m => (getV m 0, getV m 15)) = some (2, 1) ∧
      (execOp 0 0x8015 mSub35).stateOf.map (fun m => (getV m 0, getV m 15)) = some (254, 0) := by
  constructor
  · rw [C3_theorem 0 0x8015 mSub53 (by decide) (by decide)]
    decide
  · rw [C3_theorem 0 0x8015 mSub35 (by decide) (by decide)]
    decide

/-! ### Key-wait claim -/

/-- The timer phase never touches `pc`, the registers, or the
last-released-key marker. -/
lemma tickPhase_pres (s : Machine) :
    (tickPhase s).1.pc = s.pc ∧ (tickPhase s).1.vx = s.vx ∧
      (tickPhase s).1.lastReleasedKey = s.lastReleasedKey := by
  unfold tickPhase timerTick
  by_cases h1 : s.clockCycleCounter = CPUFrequency / ClockFrequency <;>
    by_cases h2 : s.dt > 0 <;> by_cases h3 : 0 < s.st <;>
    by_cases h4 : s.isSoundPlaying = true <;>
    simp [h1, h2, h3, h4]

/-- Claim C5: `Fx0A` with no pending key release leaves the machine state
(in particular `pc` and all registers) completely unchanged, so the
instruction is retried by the next cycle; with a pending released key `k`
it stores `k` into `Vx`, clears the marker and advances `pc` by 2.  At the
`Cycle` level, a blocked `Fx0A` leaves `pc`, the registers and the marker
unchanged through the timer phase. -/
theorem C5_theorem (rnd op : Nat) (s : Machine)
    (hfam : op / 4096 % 16 = 15) (hkk : fldKK op = 0x0a) :
    (s.lastReleasedKey = none → execOp rnd op s = HR.ok s) ∧
    (∀ k, s.lastReleasedKey = some k →
      execOp rnd op s =
        HR.ok
          { s with
              vx := s.vx.set (fldX op) k,
              lastReleasedKey := none,
              pc := (s.pc + 2) % 65536 }) ∧
    (∀ hi lo, s.lastReleasedKey = none →
      memRead s.memory s.pc = some hi →
      memRead s.memory ((s.pc + 1) % 65536) = some lo →
      hi * 256 + lo = op →
      Cycle rnd s = CR.ok (tickPhase s).1 (tickPhase s).2 ∧
        (tickPhase s).1.pc = s.pc ∧ (tickPhase s).1.vx = s.vx ∧
        (tickPhase s).1.lastReleasedKey = none) := by
  have hblock : s.lastReleasedKey = none → execOp rnd op s = HR.ok s := by
    intro hnone
    rw [execOp_famF rnd op s hfam]
    unfold opHandlerF
    rw [hkk, hnone]
  refine ⟨hblock, ?_, ?_⟩
  · intro k hk
    rw [execOp_famF rnd op s hfam]
    unfold opHandlerF
    rw [hkk, hk]
    rfl
  · intro hi lo hnone hhi hlo hop
    refine ⟨?_, (tickPhase_pres s).1, (tickPhase_pres s).2.1, ?_⟩
    · have hfetch : Cycle rnd s =
          (match execOp rnd (hi * 256 + lo) s with
           | HR.panic => CR.panic
           | HR.err s1 => CR.err s1
           | HR.ok s1 => CR.ok (tickPhase s1).1 (tickPhase s1).2) := by
        unfold Cycle
        rw [hhi, hlo]
      rw [hfetch, hop, hblock hnone]
    · rw [(tickPhase_pres s).2.2, hnone]

/-- Demo machine with a pending released key 7. -/
def mKey : Machine := { NewInterpreter with lastReleasedKey := some 7 }

/-- Witness for C5: a blocked `Fx0A` returns the state unchanged; with
released key 7 pending, `F30A` stores 7 into `V3`, clears the marker and
advances `pc` to 0x202. -/
theorem C5_witness :
    execOp 0 0xF00A NewInterpreter = HR.ok NewInterpreter ∧
      (execOp 0 0xF30A mKey).stateOf.map (fun m => (getV m 3, m.pc, m.lastReleasedKey)) =
        some (7, 0x202, none) := by
  constructor
  · exact (C5_theorem 0 0xF00A NewInterpreter (by decide) (by decide)).1 rfl
  · rw [(C5_theorem 0 0xF30A mKey (by decide) (by decide)).2.1 7 rfl]
    decide

/-! ### Unknown-opcode claims -/

def HR.isErr : HR → Bool
  | .err _ => true
  | _ => false

/-- Claim C1 (amended): an instruction word whose encoding matches no
defined opcode in its dispatched family returns the unknown-opcode
failure; families 0, 5, 8 and F leave the machine state completely
unchanged, while family E has already advanced the program counter by 2
before dispatching on the low byte, so its failure state is the original
state with `pc + 2`. -/
theorem C1_theorem (rnd op : Nat) (s : Machine) :
    (op / 4096 % 16 = 0 → fldKK op ≠ 0xe0 → fldKK op ≠ 0xee →
      execOp rnd op s = HR.err s) ∧
    (op / 4096 % 16 = 5 → fldN op ≠ 0 → execOp rnd op s = HR.err s) ∧
    (op / 4096 % 16 = 8 → fldN op ≠ 0 → fldN op ≠ 1 → fldN op ≠ 2 → fldN op ≠ 3 →
      fldN op ≠ 4 → fldN op ≠ 5 → fldN op ≠ 6 → fldN op ≠ 7 → fldN op ≠ 0xe →
      execOp rnd op s = HR.err s) ∧
    (op / 4096 % 16 = 15 → fldKK op ≠ 0x07 → fldKK op ≠ 0x0a → fldKK op ≠ 0x15 →
      fldKK op ≠ 0x18 → fldKK op ≠ 0x1e → fldKK op ≠ 0x29 → fldKK op ≠ 0x33 →
      fldKK op ≠ 0x55 → fldKK op ≠ 0x65 → execOp rnd op s = HR.err s) ∧
    (op / 4096 % 16 = 14 → fldKK op ≠ 0x9e → fldKK op ≠ 0xa1 →
      execOp rnd op s = HR.err (advance s)) := by
  refine ⟨?_, ?_, ?_, ?_, ?_⟩
  · intro hf h1 h2
    rw [execOp_fam0 rnd op s hf]
    unfold opHandler0
    split <;> first
      | rfl
      | (exfalso; omega)
  · intro hf h1
    rw [execOp_fam5 rnd op s hf]
    unfold opHandler5
    rw [if_pos h1]
  · intro hf h0 h1 h2 h3 h4 h5 h6 h7 he
    rw [execOp_fam8 rnd op s hf]
    unfold opHandler8
    split <;> first
      | rfl
      | (exfalso; omega)
  · intro hf h07 h0a h15 h18 h1e h29 h33 h55 h65
    rw [execOp_famF rnd op s hf]
    unfold opHandlerF
    split <;> first
      | rfl
      | (exfalso; omega)
  · intro hf h9e ha1
    rw [execOp_famE rnd op s hf]
    unfold opHandlerE
    split <;> first
      | rfl
      | (exfalso; omega)

/-- Counterexample for C1 as stated: the unknown family-E encoding
`E0FF` reports the unknown-opcode failure with the program counter
already advanced from 0x200 to 0x202 — the state is not unchanged. -/
theorem C1_counterexample :
    (execOp 0 0xE0FF NewInterpreter).isErr = true ∧
    (execOp 0 0xE0FF NewInterpreter).stateOf.map Machine.pc = some 0x202 ∧
    NewInterpreter.pc = 0x200 := by
  refine ⟨by decide, by decide, by decide⟩

/-- Witness for the amended C1: concrete unknown encodings in each
dispatched family. -/
theorem C1_witness :
    execOp 0 0x00FF NewInterpreter = HR.err NewInterpreter ∧
    execOp 0 0x5AB1 NewInterpreter = HR.err NewInterpreter ∧
    execOp 0 0x8AB8 NewInterpreter = HR.err NewInterpreter ∧
    execOp 0 0xFA99 NewInterpreter = HR.err NewInterpreter ∧
    execOp 0 0xEAFF NewInterpreter = HR.err (advance NewInterpreter) := by
  refine ⟨?_, ?_, ?_, ?_, ?_⟩
  · exact (C1_theorem 0 0x00FF NewInterpreter).1 (by decide) (by decide) (by decide)
  · exact (C1_theorem 0 0x5AB1 NewInterpreter).2.1 (by decide) (by decide)
  · exact (C1_theorem 0 0x8AB8 NewInterpreter).2.2.1 (by decide) (by decide) (by decide)
      (by decide) (by decide) (by decide) (by decide) (by decide) (by decide) (by decide)
  · exact (C1_theorem 0 0xFA99 NewInterpreter).2.2.2.1 (by decide) (by decide) (by decide)
      (by decide) (by decide) (by decide) (by decide) (by decide) (by decide) (by decide)
  · exact (C1_theorem 0 0xEAFF NewInterpreter).2.2.2.2 (by decide) (by decide) (by decide)

/-! ### Last-released-key marker -/

/-- Claim C8 (amended): `SetKeyState` records the key-down state, and a
"not pressed" call stores the key into the last-released-key marker
unconditionally — regardless of whether the key was previously down — while
a "pressed" call leaves the marker unchanged. -/
theorem C8_theorem (s : Machine) (k : Nat) (p : Bool) :
    (SetKeyState s k false).lastReleasedKey = some k ∧
    (SetKeyState s k true).lastReleasedKey = s.lastReleasedKey ∧
    (SetKeyState s k p).keys = s.keys.set k p := by
  refine ⟨rfl, rfl, rfl⟩

/-- Demo machine whose marker holds key 3 while every key is up. -/
def mMark : Machine := { NewInterpreter with lastReleasedKey := some 3 }

/-- Counterexample for C8 as stated: releasing key 5 while key 5 is
already up still overwrites the marker (some 3 becomes some 5), so the
marker is not left unchanged on a release of an already-up key. -/
theorem C8_counterexample :
    getKey mMark 5 = false ∧
    mMark.lastReleasedKey = some 3 ∧
    (SetKeyState mMark 5 false).lastReleasedKey = some 5 := by
  refine ⟨by decide, rfl, rfl⟩

/-! ### Timer and sound-edge claims -/

lemma opHandler0_counter (op : Nat) (s s2 : Machine)
    (h : opHandler0 op s = HR.ok s2) : s2.clockCycleCounter = s.clockCycleCounter := by
  unfold opHandler0 at h
  (try split at h) <;> (try split at h)
  all_goals first
    | exact (HR.noConfusion h)
    | (rw [HR.ok.injEq] at h; subst h; first | rfl | (split <;> rfl))

lemma opHandler1_counter (op : Nat) (s s2 : Machine)
    (h : opHandler1 op s = HR.ok s2) : s2.clockCycleCounter = s.clockCycleCounter := by
  unfold opHandler1 at h
  (try split at h) <;> (try split at h)
  all_goals first
    | exact (HR.noConfusion h)
    | (rw [HR.ok.injEq] at h; subst h; first | rfl | (split <;> rfl))

lemma opHandler2_counter (op : Nat) (s s2 : Machine)
    (h : opHandler2 op s = HR.ok s2) : s2.clockCycleCounter = s.clockCycleCounter := by
  unfold opHandler2 at h
  (try split at h) <;> (try split at h)
  all_goals first
    | exact (HR.noConfusion h)
    | (rw [HR.ok.injEq] at h; subst h; first | rfl | (split <;> rfl))

lemma opHandler3_counter (op : Nat) (s s2 : Machine)
    (h : opHandler3 op s = HR.ok s2) : s2.clockCycleCounter = s.clockCycleCounter := by
  unfold opHandler3 at h
  (try split at h) <;> (try split at h)
  all_goals first
    | exact (HR.noConfusion h)
    | (rw [HR.ok.injEq] at h; subst h; first | rfl | (split <;> rfl))

lemma opHandler4_counter (op : Nat) (s s2 : Machine)
    (h : opHandler4 op s = HR.ok s2) : s2.clockCycleCounter = s.clockCycleCounter := by
  unfold opHandler4 at h
  (try split at h) <;> (try split at h)
  all_goals first
    | exact (HR.noConfusion h)
    | (rw [HR.ok.injEq] at h; subst h; first | rfl | (split <;> rfl))

lemma opHandler5_counter (op : Nat) (s s2 : Machine)
    (h : opHandler5 op s = HR.ok s2) : s2.clockCycleCounter = s.clockCycleCounter := by
  unfold opHandler5 at h
  (try split at h) <;> (try split at h)
  all_goals first
    | exact (HR.noConfusion h)
    | (rw [HR.ok.injEq] at h; subst h; first | rfl | (split <;> rfl))

lemma opHandler6_counter (op : Nat) (s s2 : Machine)
    (h : opHandler6 op s = HR.ok s2) : s2.clockCycleCounter = s.clockCycleCounter := by
  unfold opHandler6 at h
  (try split at h) <;> (try split at h)
  all_goals first
    | exact (HR.noConfusion h)
    | (rw [HR.ok.injEq] at h; subst h; first | rfl | (split <;> rfl))

lemma opHandler7_counter (op : Nat) (s s2 : Machine)
    (h : opHandler7 op s = HR.ok s2) : s2.clockCycleCounter = s.clockCycleCounter := by
  unfold opHandler7 at h
  (try split at h) <;> (try split at h)
  all_goals first
    | exact (HR.noConfusion h)
    | (rw [HR.ok.injEq] at h; subst h; first | rfl | (split <;> rfl))

lemma opHandler8_counter (op : Nat) (s s2 : Machine)
    (h : opHandler8 op s = HR.ok s2) : s2.clockCycleCounter = s.clockCycleCounter := by
  unfold opHandler8 at h
  (try split at h) <;> (try split at h)
  all_goals first
    | exact (HR.noConfusion h)
    | (rw [HR.ok.injEq] at h; subst h; first | rfl | (split <;> rfl))

lemma opHandler9_counter (op : Nat) (s s2 : Machine)
    (h : opHandler9 op s = HR.ok s2) : s2.clockCycleCounter = s.clockCycleCounter := by
  unfold opHandler9 at h
  (try split at h) <;> (try split at h)
  all_goals first
    | exact (HR.noConfusion h)
    | (rw [HR.ok.injEq] at h; subst h; first | rfl | (split <;> rfl))

lemma opHandlerA_counter (op : Nat) (s s2 : Machine)
    (h : opHandlerA op s = HR.ok s2) : s2.clockCycleCounter = s.clockCycleCounter := by
  unfold opHandlerA at h
  (try split at h) <;> (try split at h)
  all_goals first
    | exact (HR.noConfusion h)
    | (rw [HR.ok.injEq] at h; subst h; first | rfl | (split <;> rfl))

lemma opHandlerB_counter (op : Nat) (s s2 : Machine)
    (h : opHandlerB op s = HR.ok s2) : s2.clockCycleCounter = s.clockCycleCounter := by
  unfold opHandlerB at h
  (try split at h) <;> (try split at h)
  all_goals first
    | exact (HR.noConfusion h)
    | (rw [HR.ok.injEq] at h; subst h; first | rfl | (split <;> rfl))

lemma opHandlerD_counter (op : Nat) (s s2 : Machine)
    (h : opHandlerD op s = HR.ok s2) : s2.clockCycleCounter = s.clockCycleCounter := by
  unfold opHandlerD at h
  (try split at h) <;> (try split at h)
  all_goals first
    | exact (HR.noConfusion h)
    | (rw [HR.ok.injEq] at h; subst h; first | rfl | (split <;> rfl))

lemma opHandlerE_counter (op : Nat) (s s2 : Machine)
    (h : opHandlerE op s = HR.ok s2) : s2.clockCycleCounter = s.clockCycleCounter := by
  unfold opHandlerE at h
  (try split at h) <;> (try split at h)
  all_goals first
    | exact (HR.noConfusion h)
    | (rw [HR.ok.injEq] at h; subst h; first | rfl | (split <;> rfl))

lemma opHandlerF_counter (op : Nat) (s s2 : Machine)
    (h : opHandlerF op s = HR.ok s2) : s2.clockCycleCounter = s.clockCycleCounter := by
  unfold opHandlerF at h
  (try split at h) <;> (try split at h)
  all_goals first
    | exact (HR.noConfusion h)
    | (rw [HR.ok.injEq] at h; subst h; first | rfl | (split <;> rfl))

lemma opHandlerC_counter (rnd op : Nat) (s s2 : Machine)
    (h : opHandlerC rnd op s = HR.ok s2) : s2.clockCycleCounter = s.clockCycleCounter := by
  unfold opHandlerC at h
  rw [HR.ok.injEq] at h
  subst h
  rfl

/-- A successful dispatch never touches the clock-cycle counter. -/
lemma execOp_counter (rnd op : Nat) (s s2 : Machine)
    (h : execOp rnd op s = HR.ok s2) : s2.clockCycleCounter = s.clockCycleCounter := by
  unfold execOp at h
  split at h
  · exact opHandler0_counter _ _ _ h
  · exact opHandler1_counter _ _ _ h
  · exact opHandler2_counter _ _ _ h
  · exact opHandler3_counter _ _ _ h
  · exact opHandler4_counter _ _ _ h
  · exact opHandler5_counter _ _ _ h
  · exact opHandler6_counter _ _ _ h
  · exact opHandler7_counter _ _ _ h
  · exact opHandler8_counter _ _ _ h
  · exact opHandler9_counter _ _ _ h
  · exact opHandlerA_counter _ _ _ h
  · exact opHandlerB_counter _ _ _ h
  · exact opHandlerC_counter _ _ _ _ h
  · exact opHandlerD_counter _ _ _ h
  · exact opHandlerE_counter _ _ _ h
  · exact opHandlerF_counter _ _ _ h

lemma timerTick_true_iff (s : Machine) :
    (timerTick s).2 = [true] ↔ 0 < s.st ∧ s.isSoundPlaying = false := by
  unfold timerTick
  cases hpl : s.isSoundPlaying <;> by_cases hst : 0 < s.st <;> by_cases hdt : s.dt > 0 <;>
    simp [hpl, hst, hdt]

lemma timerTick_false_iff (s : Machine) :
    (timerTick s).2 = [false] ↔ s.st = 0 ∧ s.isSoundPlaying = true := by
  unfold timerTick
  cases hpl : s.isSoundPlaying <;> by_cases hst : 0 < s.st <;> by_cases hdt : s.dt > 0 <;>
    simp [hpl, hst, hdt] <;> omega

lemma timerTick_playing (s : Machine) :
    (timerTick s).1.isSoundPlaying = decide (0 < s.st) := by
  unfold timerTick
  cases hpl : s.isSoundPlaying <;> by_cases hst : 0 < s.st <;> by_cases hdt : s.dt > 0 <;>
    simp [hpl, hst, hdt]

lemma timerTick_st (s : Machine) : (timerTick s).1.st = s.st - 1 := by
  unfold timerTick
  cases hpl : s.isSoundPlaying <;> by_cases hst : 0 < s.st <;> by_cases hdt : s.dt > 0 <;>
    simp [hpl, hst, hdt] <;> omega

lemma timerTick_events (s : Machine) :
    (timerTick s).2 = [] ∨ (timerTick s).2 = [true] ∨ (timerTick s).2 = [false] := by
  unfold timerTick
  cases hpl : s.isSoundPlaying <;> by_cases hst : 0 < s.st <;> by_cases hdt : s.dt > 0 <;>
    simp [hpl, hst, hdt]

/-- Claim C9: the beep callback fires `true` exactly on a timer tick that
observes an active sound timer with the tone not yet playing, fires
`false` exactly on a tick that observes an inactive timer with the tone
still playing, and the playing latch always ends a tick equal to the
observed activity — so a second tick with the same activity status fires
nothing (never once per tick), and a cycle whose counter is not at the
tick cadence fires nothing at all. -/
theorem C9_theorem (s : Machine) :
    ((timerTick s).2 = [true] ↔ 0 < s.st ∧ s.isSoundPlaying = false) ∧
    ((timerTick s).2 = [false] ↔ s.st = 0 ∧ s.isSoundPlaying = true) ∧
    ((timerTick s).1.isSoundPlaying = decide (0 < s.st)) ∧
    (0 < s.st → (timerTick (timerTick s).1).2 ≠ [true]) ∧
    (s.st = 0 → (timerTick (timerTick s).1).2 = []) ∧
    (∀ rnd s2 evs, s.clockCycleCounter ≠ CPUFrequency / ClockFrequency →
      Cycle rnd s = CR.ok s2 evs → evs = []) := by
  refine ⟨timerTick_true_iff s, timerTick_false_iff s, timerTick_playing s, ?_, ?_, ?_⟩
  · intro hst hcontra
    obtain ⟨-, h2⟩ := (timerTick_true_iff _).mp hcontra
    rw [timerTick_playing s] at h2
    simp [hst] at h2
  · intro hst
    rcases timerTick_events ((timerTick s).1) with h | h | h
    · exact h
    · obtain ⟨h1, -⟩ := (timerTick_true_iff _).mp h
      rw [timerTick_st s, hst] at h1
      omega
    · obtain ⟨-, h2⟩ := (timerTick_false_iff _).mp h
      rw [timerTick_playing s, hst] at h2
      simp at h2
  · intro rnd s2 evs hc hcyc
    cases hhi : memRead s.memory s.pc with
    | none =>
      cases hlo : memRead s.memory ((s.pc + 1) % 65536) with
      | none =>
        have hpan : Cycle rnd s = CR.panic := by
          unfold Cycle
          rw [hhi, hlo]
        rw [hpan] at hcyc
        exact (CR.noConfusion hcyc)
      | some lo =>
        have hpan : Cycle rnd s = CR.panic := by
          unfold Cycle
          rw [hhi, hlo]
        rw [hpan] at hcyc
        exact (CR.noConfusion hcyc)
    | some hi =>
      cases hlo : memRead s.memory ((s.pc + 1) % 65536) with
      | none =>
        have hpan : Cycle rnd s = CR.panic := by
          unfold Cycle
          rw [hhi, hlo]
        rw [hpan] at hcyc
        exact (CR.noConfusion hcyc)
      | some lo =>
        have hfetch : Cycle rnd s =
            (match execOp rnd (hi * 256 + lo) s with
             | HR.panic => CR.panic
             | HR.err s1 => CR.err s1
             | HR.ok s1 => CR.ok (tickPhase s1).1 (tickPhase s1).2) := by
          unfold Cycle
          rw [hhi, hlo]
        rw [hfetch] at hcyc
        cases hex : execOp rnd (hi * 256 + lo) s with
        | panic =>
          rw [hex] at hcyc
          exact (CR.noConfusion hcyc)
        | err s1 =>
          rw [hex] at hcyc
          exact (CR.noConfusion hcyc)
        | ok s1 =>
          rw [hex] at hcyc
          rw [CR.ok.injEq] at hcyc
          obtain ⟨-, hevs⟩ := hcyc
          rw [← hevs]
          have hc1 : s1.clockCycleCounter ≠ CPUFrequency / ClockFrequency := by
            rw [execOp_counter rnd _ s s1 hex]
            exact hc
          unfold tickPhase
          rw [if_neg hc1]

/-- Demo machine with an active sound timer and tone not yet playing. -/
def mSnd : Machine := { NewInterpreter with st := 2 }

/-- Witness for C9: the first tick on `mSnd` fires the start-tone edge,
and the immediately following tick fires nothing. -/
theorem C9_witness :
    (timerTick mSnd).2 = [true] ∧ (timerTick (timerTick mSnd).1).2 ≠ [true] :=
  ⟨(C9_theorem mSnd).1.mpr ⟨by decide, rfl⟩, (C9_theorem mSnd).2.2.2.1 (by decide)⟩

/-! ### Array-access safety claims -/

lemma foldlM_write_some (vxs : List Nat) (base : Nat) :
    ∀ (ks : List Nat) (mem : Nat → Nat), (∀ k ∈ ks, (base + k) % 65536 < 4096) →
      ∃ m, ks.foldlM (fun m k => memWrite m ((base + k) % 65536) (vxs.getD k 0)) mem = some m := by
  intro ks
  induction ks with
  | nil =>
    intro mem _
    exact ⟨mem, rfl⟩
  | cons k ks ih =>
    intro mem h
    obtain ⟨m, hm⟩ := ih (fun j => if j = (base + k) % 65536 then vxs.getD k 0 else mem j)
      (fun z hz => h z (List.mem_cons_of_mem _ hz))
    refine ⟨m, ?_⟩
    rw [List.foldlM_cons, memWrite, if_pos (h k (List.mem_cons_self _ _))]
    simpa using hm

lemma foldlM_read_some (mem : Nat → Nat) (base : Nat) :
    ∀ (ks : List Nat) (vxs : List Nat), (∀ k ∈ ks, (base + k) % 65536 < 4096) →
      ∃ v, ks.foldlM (fun v k => (memRead mem ((base + k) % 65536)).map (fun b => v.set k b))
        vxs = some v := by
  intro ks
  induction ks with
  | nil =>
    intro vxs _
    exact ⟨vxs, rfl⟩
  | cons k ks ih =>
    intro vxs h
    obtain ⟨v, hv⟩ := ih (vxs.set k (mem ((base + k) % 65536)))
      (fun z hz => h z (List.mem_cons_of_mem _ hz))
    refine ⟨v, ?_⟩
    rw [List.foldlM_cons, memRead, if_pos (h k (List.mem_cons_self _ _))]
    simpa using hv

/-- Claim C10 (amended): every array access is bounds-checked; under the
stated in-bounds side conditions the stack accesses of `CALL`/`RET` and
the memory accesses of `Fx33`/`Fx55`/`Fx65` cannot reach the bounds-check
fault.  (The fault branch itself is reachable — see the counterexample.) -/
theorem C10_theorem (rnd : Nat) (s : Machine) (hWF : WF s) :
    (∀ op, op / 4096 % 16 = 2 → s.sp < 16 → execOp rnd op s ≠ HR.panic) ∧
    (1 ≤ s.sp → s.sp ≤ 16 → execOp rnd 0x00EE s ≠ HR.panic) ∧
    (∀ op, op / 4096 % 16 = 15 → fldKK op = 0x33 → s.i + 2 < 4096 →
      execOp rnd op s ≠ HR.panic) ∧
    (∀ op, op / 4096 % 16 = 15 → fldKK op = 0x55 → s.i + fldX op < 4096 →
      execOp rnd op s ≠ HR.panic) ∧
    (∀ op, op / 4096 % 16 = 15 → fldKK op = 0x65 → s.i + fldX op < 4096 →
      execOp rnd op s ≠ HR.panic) := by
  obtain ⟨hvx, hstk, hkeys, hdisp, hrows⟩ := hWF
  refine ⟨?_, ?_, ?_, ?_, ?_⟩
  · intro op hf hsp
    rw [callSpec rnd op s hf (by omega)]
    simp
  · intro h1 h2
    rw [retSpec rnd s hstk h1 h2]
    simp
  · intro op hf hkk hbound
    rw [execOp_famF rnd op s hf]
    unfold opHandlerF
    rw [hkk]
    have e1 : (s.i + 1) % 65536 = s.i + 1 := by omega
    have e2 : (s.i + 2) % 65536 = s.i + 2 := by omega
    rw [e1, e2]
    obtain ⟨m1, h1⟩ : ∃ m1, memWrite s.memory s.i (getV s (fldX op) / 100) = some m1 :=
      ⟨_, by rw [memWrite, if_pos (show s.i < 4096 by omega)]⟩
    obtain ⟨m2, h2⟩ : ∃ m2, memWrite m1 (s.i + 1) (getV s (fldX op) / 10 % 10) = some m2 :=
      ⟨_, by rw [memWrite, if_pos (show s.i + 1 < 4096 by omega)]⟩
    obtain ⟨m3, h3⟩ : ∃ m3, memWrite m2 (s.i + 2) (getV s (fldX op) % 10) = some m3 :=
      ⟨_, by rw [memWrite, if_pos (show s.i + 2 < 4096 by omega)]⟩
    rw [h1]
    simp only [Option.bind_eq_bind, Option.some_bind]
    rw [h2]
    simp only [Option.bind_eq_bind, Option.some_bind]
    rw [h3]
    simp
  · intro op hf hkk hbound
    rw [execOp_famF rnd op s hf]
    unfold opHandlerF
    rw [hkk]
    have hx16 : fldX op < 16 := Nat.mod_lt _ (by norm_num)
    obtain ⟨m, hm⟩ := foldlM_write_some s.vx s.i (List.range (fldX op + 1)) s.memory
      (fun k hk => by
        have := List.mem_range.mp hk
        omega)
    rw [show storeRegsMem s.memory s.vx s.i (fldX op + 1) = some m from hm]
    simp
  · intro op hf hkk hbound
    rw [execOp_famF rnd op s hf]
    unfold opHandlerF
    rw [hkk]
    have hx16 : fldX op < 16 := Nat.mod_lt _ (by norm_num)
    obtain ⟨v, hv⟩ := foldlM_read_some s.memory s.i (List.range (fldX op + 1)) s.vx
      (fun k hk => by
        have := List.mem_range.mp hk
        omega)
    rw [show loadRegsVx s.vx s.memory s.i (fldX op + 1) = some v from hv]
    simp

/-- Witness for the amended C10 at the initial machine: a `CALL` and an
in-bounds `F533` BCD store do not fault. -/
theorem C10_witness :
    execOp 0 0x2345 NewInterpreter ≠ HR.panic ∧
      execOp 0 0xF533 NewInterpreter ≠ HR.panic :=
  ⟨(C10_theorem 0 NewInterpreter (by decide)).1 0x2345 (by decide) (by decide),
   (C10_theorem 0 NewInterpreter (by decide)).2.2.1 0xF533 (by decide) (by decide) (by decide)⟩

/-- Counterexample for C10 as stated: the out-of-bounds branch is
reachable.  The four-instruction program `AFFF 61FF F11E F033` (load
`I := 0xFFF`, `V1 := 0xFF`, `I += V1`, BCD-store at `I = 0x10FE ≥ 4096`)
drives the freshly loaded machine into the bounds-check fault on its
fourth cycle. -/
theorem C10_counterexample :
    runCycles [0, 0, 0, 0]
      (Load NewInterpreter [0xAF, 0xFF, 0x61, 0xFF, 0xF1, 0x1E, 0xF0, 0x33]) = CR.panic := rfl

end Chip8
